import Mathlib

/-!
Shallow embedding of the VielProof verifier program
(src/programs/verifier_program/src/lib.rs) and proofs about its
decode / digest / attestation-lookup / tally pipeline.

Bytes are modelled as `List Nat` (each entry a byte value); u16/u32/u64
values are `Nat`s obtained by little-endian recomposition, with `% 2 ^ 64`
bounds carried as hypotheses where a field is known to come from an 8-byte
read.  The SHA-256 function used through `solana_program::hash::hashv` is
a parameter `H : Bytes → Bytes`; `hashv` hashes the concatenation of its
segments, which is all the program relies on.  The instruction sysvar is
modelled as the list of instructions of the transaction together with the
index of the current instruction.
-/

set_option maxRecDepth 16384

namespace VielProof

abbrev Bytes := List Nat

/-- Little-endian value of a byte list. -/
def leVal : Bytes → Nat
  | [] => 0
  | b :: t => b + 256 * leVal t

/-- `u16::from_le_bytes([a, b])`. -/
def u16le (a b : Nat) : Nat := a + 256 * b

/-- `u32::from_le_bytes` of (the first four bytes of) a byte list. -/
def u32le (bs : Bytes) : Nat := leVal (bs.take 4)

/-- `u64::from_le_bytes` of (the first eight bytes of) a byte list. -/
def u64le (bs : Bytes) : Nat := leVal (bs.take 8)

/-- `w` little-endian bytes of `n` (truncating at `256 ^ w`). -/
def leBytes : Nat → Nat → Bytes
  | 0, _ => []
  | w + 1, n => n % 256 :: leBytes w (n / 256)

/-- `u64::to_le_bytes`. -/
def u64ToLe (n : Nat) : Bytes := leBytes 8 n

/-- The slice `bs[off..off + len]`. -/
def slice (bs : Bytes) (off len : Nat) : Bytes := (bs.drop off).take len

/-- The hardcoded attestation signer public key from the source. -/
def ATTESTATION_SIGNER_PUBKEY : Bytes :=
  [0x16, 0x93, 0x5c, 0xb5, 0x14, 0x21, 0xe6, 0x4f, 0x44, 0xb2, 0xac, 0xe1, 0x4b, 0xa2,
   0xe6, 0x90, 0x1d, 0xe0, 0x0d, 0x92, 0xcb, 0x1e, 0xe3, 0xca, 0x69, 0x47, 0x3d, 0x75,
   0x02, 0xab, 0xdb, 0x8d]

/-- Model of the well-known `ed25519_program::id()` public key. -/
def ed25519ProgramId : Nat := 3

/-- Model of the well-known `sysvar::instructions::id()` public key. -/
def instructionsSysvarId : Nat := 4

/-- The ASCII domain-separation tag hashed first into the digest. -/
def domainTag : Bytes := ("VEILPROOF_V1".toList).map Char.toNat

/-- Model of `solana_program::instruction::Instruction`: a program id and
its raw instruction data. -/
structure Instr where
  program_id : Nat
  data : Bytes
deriving DecidableEq

/-- Default instruction used with `List.getD`. -/
def dummyInstr : Instr := ⟨0, []⟩

/-- Model of the instructions sysvar: the transaction's instruction list
and the index of the currently executing instruction. -/
structure Batch where
  instrs : List Instr
  currentIndex : Nat

/-- Model of `solana_program::account_info::AccountInfo` (the fields the
program uses). -/
structure AccountInfo where
  key : Nat
  is_writable : Bool
  data : Bytes

/-- The persistent tally record (borsh: two little-endian u64 fields). -/
structure VerifiedVoteState where
  proposal_id : Nat
  yes_proofs : Nat
deriving DecidableEq

/-- Model of `solana_program::program_error::ProgramError` (the variants
the program returns). -/
inductive ProgramError where
  | InvalidInstructionData
  | InvalidAccountData
  | NotEnoughAccountKeys
deriving DecidableEq

/-- The distinct `msg!` log lines emitted by the program. -/
inductive LogMsg where
  | invalidDataLen
  | invalidProofLen
  | missingSysvar
  | attestationFailed
  | notWritable
  | proposalMismatch
  | verified (proposal_id : Nat)
deriving DecidableEq

instance {ε α : Type} [DecidableEq ε] [DecidableEq α] : DecidableEq (Except ε α) := fun a b =>
  match a, b with
  | .ok x, .ok y =>
    if h : x = y then isTrue (by rw [h]) else isFalse (fun hh => h (by cases hh; rfl))
  | .error x, .error y =>
    if h : x = y then isTrue (by rw [h]) else isFalse (fun hh => h (by cases hh; rfl))
  | .ok _, .error _ => isFalse (fun hh => Except.noConfusion hh)
  | .error _, .ok _ => isFalse (fun hh => Except.noConfusion hh)

/-- The observable outcome of one invocation: the returned
`ProgramResult`, the bytes of the state account after the call, and the
log lines emitted. -/
structure Outcome where
  res : Except ProgramError Unit
  stateData : Bytes
  logs : List LogMsg
deriving DecidableEq

/-- The decoded submission (fields of the wire format). -/
structure Submission where
  expected_program_id : Nat
  proposal_id : Nat
  vk_hash : Bytes
  public_inputs_hash : Bytes
  signature : Bytes
  proof : Bytes
deriving DecidableEq

/-- Request Decoder: lines 34-62 of the source.  Both failure sites
return `ProgramError::InvalidInstructionData` (the spec's
`MalformedInput`). -/
def decodeSubmission (instruction_data : Bytes) : Except ProgramError Submission :=
  let min_len := 8 + 8 + 32 + 32 + 64 + 4
  if instruction_data.length < min_len then Except.error ProgramError.InvalidInstructionData
  else
    let proof_len := u32le (slice instruction_data 144 4)
    if instruction_data.length < 148 + proof_len then
      Except.error ProgramError.InvalidInstructionData
    else
      Except.ok
        { expected_program_id := u64le (slice instruction_data 0 8),
          proposal_id := u64le (slice instruction_data 8 8),
          vk_hash := slice instruction_data 16 32,
          public_inputs_hash := slice instruction_data 48 32,
          signature := slice instruction_data 80 64,
          proof := slice instruction_data 148 proof_len }

/-- `solana_program::hash::hashv`: hash of the concatenation of the
segments, for the hash parameter `H`. -/
def hashv (H : Bytes → Bytes) (segs : List Bytes) : Bytes := H segs.flatten

/-- Digest Composer: lines 64-73 of the source. -/
def composeDigest (H : Bytes → Bytes) (s : Submission) : Bytes :=
  let proof_hash := hashv H [s.proof]
  hashv H [domainTag, u64ToLe s.expected_program_id, u64ToLe s.proposal_id,
           s.vk_hash, proof_hash, s.public_inputs_hash]

/-- `u16::from_le_bytes([ix.data[2], ix.data[3]])` (signature offset). -/
def sigOffset (ix : Instr) : Nat := u16le (ix.data.getD 2 0) (ix.data.getD 3 0)

/-- Signature instruction-index field of the offsets table. -/
def sigIxIdx (ix : Instr) : Nat := u16le (ix.data.getD 4 0) (ix.data.getD 5 0)

/-- Public-key offset field of the offsets table. -/
def pubOffset (ix : Instr) : Nat := u16le (ix.data.getD 6 0) (ix.data.getD 7 0)

/-- Public-key instruction-index field of the offsets table. -/
def pubIxIdx (ix : Instr) : Nat := u16le (ix.data.getD 8 0) (ix.data.getD 9 0)

/-- Message offset field of the offsets table. -/
def msgOffset (ix : Instr) : Nat := u16le (ix.data.getD 10 0) (ix.data.getD 11 0)

/-- Message size field of the offsets table. -/
def msgSize (ix : Instr) : Nat := u16le (ix.data.getD 12 0) (ix.data.getD 13 0)

/-- Message instruction-index field of the offsets table. -/
def msgIxIdx (ix : Instr) : Nat := u16le (ix.data.getD 14 0) (ix.data.getD 15 0)

/-- `check_ed25519_ix`: lines 156-200 of the source. -/
def check_ed25519_ix (ix : Instr) (expected_pubkey expected_signature expected_message : Bytes) :
    Bool :=
  if ix.data.length < 2 then false
  else if ix.data.getD 0 0 ≠ 1 then false
  else if ix.data.length < 2 + 14 then false
  else if sigIxIdx ix ≠ 65535 ∨ pubIxIdx ix ≠ 65535 ∨ msgIxIdx ix ≠ 65535 then false
  else if ix.data.length < sigOffset ix + 64 ∨ ix.data.length < pubOffset ix + 32 then false
  else if ix.data.length < msgOffset ix + msgSize ix ∨ msgSize ix ≠ 32 then false
  else
    decide (slice ix.data (sigOffset ix) 64 = expected_signature ∧
            slice ix.data (pubOffset ix) 32 = expected_pubkey ∧
            slice ix.data (msgOffset ix) (msgSize ix) = expected_message)

/-- The loop of `verify_ed25519_instruction`: walk the instructions at
indices `0..n`, returning false if an index cannot be loaded, skipping
instructions of other programs, and stopping at the first match. -/
def scanRecords (pk sig msg : Bytes) : List Instr → Nat → Bool
  | _, 0 => false
  | [], _ + 1 => false
  | ix :: rest, n + 1 =>
    if ix.program_id ≠ ed25519ProgramId then scanRecords pk sig msg rest n
    else if check_ed25519_ix ix pk sig msg then true
    else scanRecords pk sig msg rest n

/-- `verify_ed25519_instruction`: lines 126-154 of the source. -/
def verify_ed25519_instruction (batch : Batch)
    (expected_pubkey expected_signature expected_message : Bytes) : Bool :=
  scanRecords expected_pubkey expected_signature expected_message batch.instrs batch.currentIndex

/-- Borsh serialization of the tally record: 16 bytes. -/
def serBytes (st : VerifiedVoteState) : Bytes :=
  leBytes 8 st.proposal_id ++ leBytes 8 st.yes_proofs

/-- `VerifiedVoteState::try_from_slice`: borsh requires the buffer to be
consumed exactly, so it succeeds exactly on 16-byte buffers. -/
def tryFromSlice (bs : Bytes) : Option VerifiedVoteState :=
  if bs.length = 16 then some ⟨u64le (slice bs 0 8), u64le (slice bs 8 8)⟩ else none

/-- `state.serialize(&mut &mut data[..])`: writes as many of the 16
serialized bytes as fit; succeeds iff all 16 fit. -/
def serializeInto (st : VerifiedVoteState) (buf : Bytes) : Bool × Bytes :=
  if 16 ≤ buf.length then (true, serBytes st ++ buf.drop 16)
  else (false, (serBytes st).take buf.length)

/-- Tally State Machine: lines 99-120 of the source (state load,
proposal-id stamping and check, saturating increment, write-back). -/
def tallyFinish (proposal_id : Nat) (buf : Bytes) : Outcome :=
  let init : Except ProgramError VerifiedVoteState :=
    if buf.length = 0 then Except.ok ⟨proposal_id, 0⟩
    else
      match tryFromSlice buf with
      | some st => Except.ok st
      | none => Except.error ProgramError.InvalidAccountData
  match init with
  | .error e => ⟨Except.error e, buf, []⟩
  | .ok st0 =>
    let st1 := if st0.proposal_id = 0 then { st0 with proposal_id := proposal_id } else st0
    if st1.proposal_id ≠ proposal_id then
      ⟨Except.error ProgramError.InvalidInstructionData, buf, [LogMsg.proposalMismatch]⟩
    else
      let st2 := { st1 with yes_proofs := min (st1.yes_proofs + 1) (2 ^ 64 - 1) }
      let w := serializeInto st2 buf
      if w.1 then ⟨Except.ok (), w.2, [LogMsg.verified proposal_id]⟩
      else ⟨Except.error ProgramError.InvalidAccountData, w.2, []⟩

/-- `process_instruction`: lines 29-124 of the source.  The outcome
records the returned result, the state account's bytes after the call,
and the log line emitted. -/
def process_instruction (H : Bytes → Bytes) (accounts : List AccountInfo)
    (instruction_data : Bytes) (batch : Batch) : Outcome :=
  let origData := match accounts with | a :: _ => a.data | [] => []
  match decodeSubmission instruction_data with
  | .error e =>
    ⟨Except.error e, origData,
     [if instruction_data.length < 8 + 8 + 32 + 32 + 64 + 4 then LogMsg.invalidDataLen
      else LogMsg.invalidProofLen]⟩
  | .ok s =>
    let message_hash := composeDigest H s
    match accounts with
    | state_account :: instructions_sysvar :: _ =>
      if instructions_sysvar.key ≠ instructionsSysvarId then
        ⟨Except.error ProgramError.InvalidAccountData, origData, [LogMsg.missingSysvar]⟩
      else if ¬ verify_ed25519_instruction batch ATTESTATION_SIGNER_PUBKEY
          s.signature message_hash then
        ⟨Except.error ProgramError.InvalidInstructionData, origData, [LogMsg.attestationFailed]⟩
      else if ¬ state_account.is_writable then
        ⟨Except.error ProgramError.InvalidAccountData, origData, [LogMsg.notWritable]⟩
      else tallyFinish s.proposal_id state_account.data
    | _ => ⟨Except.error ProgramError.NotEnoughAccountKeys, origData, []⟩

/-! ### Basic lemmas about the byte-level helpers -/

@[simp]
theorem length_leBytes : ∀ (w n : Nat), (leBytes w n).length = w := by
  intro w
  induction w with
  | zero => intro n; rfl
  | succ k ih => intro n; simp [leBytes, ih]

theorem leVal_leBytes : ∀ (w n : Nat), leVal (leBytes w n) = n % 256 ^ w := by
  intro w
  induction w with
  | zero => intro n; simp [leBytes, leVal, Nat.mod_one]
  | succ k ih =>
    intro n
    simp only [leBytes, leVal, ih]
    rw [pow_succ', Nat.mod_mul]

theorem u64le_leBytes (n : Nat) (h : n < 2 ^ 64) : u64le (leBytes 8 n) = n := by
  have h256 : (256 : ℕ) ^ 8 = 2 ^ 64 := by norm_num
  unfold u64le
  rw [List.take_of_length_le (by simp), leVal_leBytes, h256, Nat.mod_eq_of_lt h]

@[simp]
theorem serBytes_length (st : VerifiedVoteState) : (serBytes st).length = 16 := by
  simp [serBytes]

theorem tryFromSlice_serBytes (p y : Nat) (hp : p < 2 ^ 64) (hy : y < 2 ^ 64) :
    tryFromSlice (serBytes ⟨p, y⟩) = some ⟨p, y⟩ := by
  have hA : (leBytes 8 p).length = 8 := length_leBytes 8 p
  have hs0 : slice (serBytes ⟨p, y⟩) 0 8 = leBytes 8 p := by
    unfold slice serBytes
    rw [List.drop_zero]
    exact List.take_left' hA
  have hs8 : slice (serBytes ⟨p, y⟩) 8 8 = leBytes 8 y := by
    unfold slice serBytes
    rw [List.drop_left' hA]
    exact List.take_of_length_le (by simp)
  unfold tryFromSlice
  rw [if_pos (serBytes_length _), hs0, hs8, u64le_leBytes p hp, u64le_leBytes y hy]

theorem serializeInto_sixteen (st : VerifiedVoteState) (buf : Bytes) (h : buf.length = 16) :
    serializeInto st buf = (true, serBytes st) := by
  unfold serializeInto
  rw [if_pos (by omega), List.drop_eq_nil_of_le (by omega), List.append_nil]

/-! ### The spec-side predicate for a matching attestation record -/

/-- The conditions of the spec's Attestation Locator contract on one
record, apart from the program-id condition: exactly one signature
entry, the three same-record sentinels, in-bounds byte ranges, 32-byte
message, and byte-for-byte equality of signature, pubkey and message. -/
def CheckSpec (ix : Instr) (pk sig msg : Bytes) : Prop :=
  ix.data.getD 0 0 = 1 ∧
  sigIxIdx ix = 65535 ∧ pubIxIdx ix = 65535 ∧ msgIxIdx ix = 65535 ∧
  sigOffset ix + 64 ≤ ix.data.length ∧
  pubOffset ix + 32 ≤ ix.data.length ∧
  msgOffset ix + msgSize ix ≤ ix.data.length ∧
  msgSize ix = 32 ∧
  slice ix.data (sigOffset ix) 64 = sig ∧
  slice ix.data (pubOffset ix) 32 = pk ∧
  slice ix.data (msgOffset ix) (msgSize ix) = msg

instance (ix : Instr) (pk sig msg : Bytes) : Decidable (CheckSpec ix pk sig msg) := by
  unfold CheckSpec
  infer_instance

/-- Full per-record condition of the spec: designated program id plus
`CheckSpec` against the hardcoded signer key. -/
def AttestsSpec (ix : Instr) (sig msg : Bytes) : Prop :=
  ix.program_id = ed25519ProgramId ∧ CheckSpec ix ATTESTATION_SIGNER_PUBKEY sig msg

instance (ix : Instr) (sig msg : Bytes) : Decidable (AttestsSpec ix sig msg) := by
  unfold AttestsSpec
  infer_instance

theorem check_eq_true_iff (ix : Instr) (pk sig msg : Bytes) :
    check_ed25519_ix ix pk sig msg = true ↔ CheckSpec ix pk sig msg := by
  unfold check_ed25519_ix CheckSpec
  split_ifs with h1 h2 h3 h4 h5 h6
  · exact iff_of_false (by simp)
      (fun hs => by obtain ⟨_, _, _, _, hB1, _⟩ := hs; omega)
  · exact iff_of_false (by simp) (fun hs => h2 hs.1)
  · exact iff_of_false (by simp)
      (fun hs => by obtain ⟨_, _, _, _, hB1, _⟩ := hs; omega)
  · refine iff_of_false (by simp) (fun hs => ?_)
    obtain ⟨_, hA2, hA3, hA4, _⟩ := hs
    rcases h4 with h | h | h <;> contradiction
  · refine iff_of_false (by simp) (fun hs => ?_)
    obtain ⟨_, _, _, _, hB1, hB2, _⟩ := hs
    rcases h5 with h | h <;> omega
  · refine iff_of_false (by simp) (fun hs => ?_)
    obtain ⟨_, _, _, _, _, _, hB3, hB4, _⟩ := hs
    rcases h6 with h | h
    · omega
    · contradiction
  · rw [decide_eq_true_eq]
    push_neg at h2 h4 h5 h6
    constructor
    · rintro ⟨hs1, hs2, hs3⟩
      exact ⟨h2, h4.1, h4.2.1, h4.2.2, h5.1, h5.2, h6.1, h6.2, hs1, hs2, hs3⟩
    · rintro ⟨_, _, _, _, _, _, _, _, hs1, hs2, hs3⟩
      exact ⟨hs1, hs2, hs3⟩

theorem check_false_of_bad_sentinel (ix : Instr) (pk sig msg : Bytes)
    (h : ¬ (sigIxIdx ix = 65535 ∧ pubIxIdx ix = 65535 ∧ msgIxIdx ix = 65535)) :
    check_ed25519_ix ix pk sig msg = false := by
  rcases hc : check_ed25519_ix ix pk sig msg with _ | _
  · rfl
  · exfalso
    obtain ⟨_, hA2, hA3, hA4, _⟩ := (check_eq_true_iff ix pk sig msg).mp hc
    exact h ⟨hA2, hA3, hA4⟩

theorem scanRecords_eq_true_iff (pk sig msg : Bytes) :
    ∀ (l : List Instr) (n : Nat), n ≤ l.length →
      (scanRecords pk sig msg l n = true ↔
        ∃ i, i < n ∧ (l.getD i dummyInstr).program_id = ed25519ProgramId ∧
          check_ed25519_ix (l.getD i dummyInstr) pk sig msg = true) := by
  intro l
  induction l with
  | nil =>
    intro n hn
    have hn0 : n = 0 := Nat.le_zero.mp hn
    subst hn0
    simp [scanRecords]
  | cons ix rest ih =>
    intro n hn
    cases n with
    | zero => simp [scanRecords]
    | succ m =>
      have hm : m ≤ rest.length := by simpa using hn
      simp only [scanRecords]
      split_ifs with h1 h2
      · rw [ih m hm]
        constructor
        · rintro ⟨i, hi, hp, hc⟩
          exact ⟨i + 1, Nat.succ_lt_succ hi, by simpa using hp, by simpa using hc⟩
        · rintro ⟨i, hi, hp, hc⟩
          cases i with
          | zero => exact absurd (by simpa using hp) h1
          | succ j =>
            exact ⟨j, Nat.lt_of_succ_lt_succ hi, by simpa using hp, by simpa using hc⟩
      · push_neg at h1
        exact iff_of_true rfl ⟨0, Nat.succ_pos m, by simpa using h1, by simpa using h2⟩
      · rw [ih m hm]
        constructor
        · rintro ⟨i, hi, hp, hc⟩
          exact ⟨i + 1, Nat.succ_lt_succ hi, by simpa using hp, by simpa using hc⟩
        · rintro ⟨i, hi, hp, hc⟩
          cases i with
          | zero => exact absurd (by simpa using hc) h2
          | succ j =>
            exact ⟨j, Nat.lt_of_succ_lt_succ hi, by simpa using hp, by simpa using hc⟩

theorem verify_eq_true_iff (batch : Batch) (sig msg : Bytes)
    (hwf : batch.currentIndex ≤ batch.instrs.length) :
    verify_ed25519_instruction batch ATTESTATION_SIGNER_PUBKEY sig msg = true ↔
      ∃ i, i < batch.currentIndex ∧ AttestsSpec (batch.instrs.getD i dummyInstr) sig msg := by
  unfold verify_ed25519_instruction AttestsSpec
  rw [scanRecords_eq_true_iff _ _ _ _ _ hwf]
  constructor
  · rintro ⟨i, hi, hp, hc⟩
    exact ⟨i, hi, hp, (check_eq_true_iff _ _ _ _).mp hc⟩
  · rintro ⟨i, hi, hp, hc⟩
    exact ⟨i, hi, hp, (check_eq_true_iff _ _ _ _).mpr hc⟩

/-! ### Lemmas about the tally phase and the handler pipeline -/

theorem serializeInto_of_le (st : VerifiedVoteState) (buf : Bytes) (h : 16 ≤ buf.length) :
    serializeInto st buf = (true, serBytes st ++ buf.drop 16) := by
  unfold serializeInto
  rw [if_pos h]

theorem tallyFinish_nil (p : Nat) :
    tallyFinish p [] = ⟨Except.error ProgramError.InvalidAccountData, [], []⟩ := by
  simp [tallyFinish, serializeInto, ite_self]

theorem tallyFinish_badLen (p : Nat) (buf : Bytes) (h0 : buf.length ≠ 0)
    (h16 : buf.length ≠ 16) :
    tallyFinish p buf = ⟨Except.error ProgramError.InvalidAccountData, buf, []⟩ := by
  simp [tallyFinish, tryFromSlice, h0, h16]

theorem tallyFinish_sixteen (p : Nat) (buf : Bytes) (h16 : buf.length = 16) :
    tallyFinish p buf =
        ⟨Except.error ProgramError.InvalidInstructionData, buf, [LogMsg.proposalMismatch]⟩ ∨
      ∃ st, tallyFinish p buf = ⟨Except.ok (), serBytes st ++ buf.drop 16,
        [LogMsg.verified p]⟩ := by
  have h0 : buf.length ≠ 0 := by omega
  unfold tallyFinish
  rw [if_neg h0]
  simp only [tryFromSlice, if_pos h16]
  rw [serializeInto_of_le _ _ (by omega)]
  split_ifs <;>
    first
      | exact Or.inl rfl
      | exact Or.inr ⟨_, rfl⟩
      | simp_all

theorem tallyFinish_cases (p : Nat) (buf : Bytes) :
    ((tallyFinish p buf).res = Except.ok () →
       ∃ st, (tallyFinish p buf).stateData = serBytes st ++ buf.drop 16) ∧
    (∀ e, (tallyFinish p buf).res = Except.error e → (tallyFinish p buf).stateData = buf) := by
  by_cases h0 : buf.length = 0
  · have hbuf : buf = [] := List.eq_nil_of_length_eq_zero h0
    subst hbuf
    rw [tallyFinish_nil]
    refine ⟨fun h => ?_, fun e _ => rfl⟩
    cases h
  · by_cases h16 : buf.length = 16
    · rcases tallyFinish_sixteen p buf h16 with h | ⟨st, h⟩
      · rw [h]
        refine ⟨fun hh => ?_, fun e _ => rfl⟩
        cases hh
      · rw [h]
        refine ⟨fun _ => ⟨st, rfl⟩, fun e hh => ?_⟩
        cases hh
    · rw [tallyFinish_badLen p buf h0 h16]
      refine ⟨fun h => ?_, fun e _ => rfl⟩
      cases h

theorem tallyFinish_on_ser (p P y : Nat) (hP : P < 2 ^ 64) (hy : y < 2 ^ 64) :
    tallyFinish p (serBytes ⟨P, y⟩) =
      if P = 0 ∨ P = p then
        ⟨Except.ok (), serBytes ⟨if P = 0 then p else P, min (y + 1) (2 ^ 64 - 1)⟩,
         [LogMsg.verified p]⟩
      else
        ⟨Except.error ProgramError.InvalidInstructionData, serBytes ⟨P, y⟩,
         [LogMsg.proposalMismatch]⟩ := by
  have hlen : (serBytes (⟨P, y⟩ : VerifiedVoteState)).length = 16 := serBytes_length _
  unfold tallyFinish
  rw [if_neg (by omega), tryFromSlice_serBytes P y hP hy]
  by_cases hP0 : P = 0
  · subst hP0
    simp [serializeInto_sixteen _ _ hlen]
  · by_cases hPp : P = p
    · subst hPp
      simp [hP0, serializeInto_sixteen _ _ hlen]
    · simp [hP0, hPp]

theorem process_reaches_tally (H : Bytes → Bytes) (sa ia : AccountInfo)
    (rest : List AccountInfo) (d : Bytes) (batch : Batch) (s : Submission)
    (hd : decodeSubmission d = Except.ok s)
    (hk : ia.key = instructionsSysvarId)
    (hv : verify_ed25519_instruction batch ATTESTATION_SIGNER_PUBKEY s.signature
            (composeDigest H s) = true)
    (hw : sa.is_writable = true) :
    process_instruction H (sa :: ia :: rest) d batch = tallyFinish s.proposal_id sa.data := by
  unfold process_instruction
  rw [hd]
  simp [hk, hv, hw]

theorem process_attestation_failure (H : Bytes → Bytes) (sa ia : AccountInfo)
    (rest : List AccountInfo) (d : Bytes) (batch : Batch) (s : Submission)
    (hd : decodeSubmission d = Except.ok s)
    (hk : ia.key = instructionsSysvarId)
    (hv : verify_ed25519_instruction batch ATTESTATION_SIGNER_PUBKEY s.signature
            (composeDigest H s) = false) :
    process_instruction H (sa :: ia :: rest) d batch =
      ⟨Except.error ProgramError.InvalidInstructionData, sa.data,
       [LogMsg.attestationFailed]⟩ := by
  unfold process_instruction
  rw [hd]
  simp [hk, hv]

/-! ### Concrete scenario used by witnesses and counterexamples -/

/-- Constant stand-in hash function: every digest is 32 zero bytes. -/
def H0 : Bytes → Bytes := fun _ => List.replicate 32 0

/-- A well-formed 148-byte submission for proposal 0 (all fields zero,
empty proof). -/
def cData0 : Bytes := List.replicate 148 0

/-- A well-formed 148-byte submission for proposal 5 (proposal id 5,
other fields zero, empty proof). -/
def cData5 : Bytes := List.replicate 8 0 ++ (5 :: List.replicate 7 0) ++ List.replicate 132 0

/-- The decoded form of `cData5`. -/
def cSub5 : Submission :=
  ⟨0, 5, List.replicate 32 0, List.replicate 32 0, List.replicate 64 0, []⟩

/-- Payload of a well-formed single-signature ed25519 verification record
attesting the all-zero signature and all-zero 32-byte message under the
hardcoded signer key, with all three same-record sentinels. -/
def cRecordData : Bytes :=
  [1, 0, 16, 0, 255, 255, 80, 0, 255, 255, 112, 0, 32, 0, 255, 255] ++
  List.replicate 64 0 ++ ATTESTATION_SIGNER_PUBKEY ++ List.replicate 32 0

/-- The matching attestation record as a batch instruction. -/
def cRecord : Instr := ⟨ed25519ProgramId, cRecordData⟩

/-- Identical to `cRecordData` except the signature source-index field is
0 instead of the same-record sentinel 65535. -/
def cBadRecordData : Bytes :=
  [1, 0, 16, 0, 0, 0, 80, 0, 255, 255, 112, 0, 32, 0, 255, 255] ++
  List.replicate 64 0 ++ ATTESTATION_SIGNER_PUBKEY ++ List.replicate 32 0

/-- `cBadRecordData` as a batch instruction of the ed25519 program. -/
def cBadRecord : Instr := ⟨ed25519ProgramId, cBadRecordData⟩

/-- A batch whose single preceding instruction is the matching record. -/
def cBatch : Batch := ⟨[cRecord], 1⟩

/-- A batch whose single preceding instruction has a wrong source index. -/
def cBadBatch : Batch := ⟨[cBadRecord], 1⟩

/-- The instructions-sysvar account. -/
def sysAcc : AccountInfo := ⟨instructionsSysvarId, false, []⟩

/-! ### Claim theorems -/

/-- C1: the Attestation Locator succeeds if and only if some record
preceding the current instruction has the designated program id, declares
exactly one signature, carries the same-record sentinel in all three
source-index fields, has in-bounds signature/pubkey/message ranges, a
32-byte message, and byte-for-byte equal signature, hardcoded signer
pubkey, and message; if no preceding record qualifies, the handler fails
with the `NoMatchingAttestation` signal (`InvalidInstructionData`,
logging the attestation-failure line) and leaves the state bytes
untouched.  Per-record short-circuiting is behaviourally captured by the
equivalence. -/
theorem c1_attestation_locator (batch : Batch) (sig msg : Bytes)
    (hwf : batch.currentIndex ≤ batch.instrs.length) :
    (verify_ed25519_instruction batch ATTESTATION_SIGNER_PUBKEY sig msg = true ↔
       ∃ i, i < batch.currentIndex ∧ AttestsSpec (batch.instrs.getD i dummyInstr) sig msg) ∧
    (∀ (H : Bytes → Bytes) (sa ia : AccountInfo) (rest : List AccountInfo) (d : Bytes)
       (s : Submission),
       decodeSubmission d = Except.ok s → s.signature = sig → composeDigest H s = msg →
       ia.key = instructionsSysvarId →
       (¬ ∃ i, i < batch.currentIndex ∧ AttestsSpec (batch.instrs.getD i dummyInstr) sig msg) →
       process_instruction H (sa :: ia :: rest) d batch =
         ⟨Except.error ProgramError.InvalidInstructionData, sa.data,
          [LogMsg.attestationFailed]⟩) := by
  refine ⟨verify_eq_true_iff batch sig msg hwf, ?_⟩
  intro H sa ia rest d s hd hsig hmsg hk hnone
  have hv : verify_ed25519_instruction batch ATTESTATION_SIGNER_PUBKEY s.signature
      (composeDigest H s) = false := by
    rw [hsig, hmsg]
    rcases hb : verify_ed25519_instruction batch ATTESTATION_SIGNER_PUBKEY sig msg with _ | _
    · rfl
    · exact absurd ((verify_eq_true_iff batch sig msg hwf).mp hb) hnone
  exact process_attestation_failure H sa ia rest d batch s hd hk hv

/-- Witness for C1: in the concrete one-record batch the locator
succeeds. -/
theorem c1_attestation_locator_witness :
    verify_ed25519_instruction cBatch ATTESTATION_SIGNER_PUBKEY
      (List.replicate 64 0) (List.replicate 32 0) = true :=
  (c1_attestation_locator cBatch (List.replicate 64 0) (List.replicate 32 0)
    (by decide)).1.mpr ⟨0, by decide, by decide⟩

/-- C3: a record whose source-index fields do not all carry the
same-record sentinel is rejected by the per-record check regardless of
its embedded bytes, and a batch in which every preceding record has a
wrong source index makes the handler fail with the
`NoMatchingAttestation` signal, leaving the state bytes untouched. -/
theorem c3_offset_confusion :
    (∀ (ix : Instr) (pk sig msg : Bytes),
       ¬ (sigIxIdx ix = 65535 ∧ pubIxIdx ix = 65535 ∧ msgIxIdx ix = 65535) →
       check_ed25519_ix ix pk sig msg = false) ∧
    (∀ (H : Bytes → Bytes) (batch : Batch) (sa ia : AccountInfo) (rest : List AccountInfo)
       (d : Bytes) (s : Submission),
       batch.currentIndex ≤ batch.instrs.length →
       decodeSubmission d = Except.ok s →
       ia.key = instructionsSysvarId →
       (∀ i, i < batch.currentIndex →
          ¬ (sigIxIdx (batch.instrs.getD i dummyInstr) = 65535 ∧
             pubIxIdx (batch.instrs.getD i dummyInstr) = 65535 ∧
             msgIxIdx (batch.instrs.getD i dummyInstr) = 65535)) →
       process_instruction H (sa :: ia :: rest) d batch =
         ⟨Except.error ProgramError.InvalidInstructionData, sa.data,
          [LogMsg.attestationFailed]⟩) := by
  refine ⟨check_false_of_bad_sentinel, ?_⟩
  intro H batch sa ia rest d s hwf hd hk hall
  have hv : verify_ed25519_instruction batch ATTESTATION_SIGNER_PUBKEY s.signature
      (composeDigest H s) = false := by
    rcases hb : verify_ed25519_instruction batch ATTESTATION_SIGNER_PUBKEY s.signature
        (composeDigest H s) with _ | _
    · rfl
    · exfalso
      obtain ⟨i, hi, _, hc⟩ :=
        (verify_eq_true_iff batch s.signature (composeDigest H s) hwf).mp hb
      obtain ⟨_, hA2, hA3, hA4, _⟩ := hc
      exact hall i hi ⟨hA2, hA3, hA4⟩
  exact process_attestation_failure H sa ia rest d batch s hd hk hv

/-- Witness for C3: the concrete record with correct bytes but signature
source-index 0 is rejected. -/
theorem c3_offset_confusion_witness :
    check_ed25519_ix cBadRecord ATTESTATION_SIGNER_PUBKEY
      (List.replicate 64 0) (List.replicate 32 0) = false :=
  c3_offset_confusion.1 cBadRecord ATTESTATION_SIGNER_PUBKEY
    (List.replicate 64 0) (List.replicate 32 0) (by decide)

/-- C5: the Request Decoder fails (with `InvalidInstructionData`, the
spec's `MalformedInput`) exactly when the buffer is shorter than the
148-byte header or 148 plus the little-endian u32 proof length at offset
144 exceeds the buffer length; otherwise it returns the submission whose
fields are the little-endian integers and raw byte copies at the fixed
wire offsets.  It is a pure total function, so it has no other failure
mode, validation, or side effect. -/
theorem c5_request_decoder (d : Bytes) :
    (decodeSubmission d = Except.error ProgramError.InvalidInstructionData ↔
       d.length < 148 ∨ d.length < 148 + u32le (slice d 144 4)) ∧
    (¬ (d.length < 148 ∨ d.length < 148 + u32le (slice d 144 4)) →
       decodeSubmission d = Except.ok
         { expected_program_id := u64le (slice d 0 8),
           proposal_id := u64le (slice d 8 8),
           vk_hash := slice d 16 32,
           public_inputs_hash := slice d 48 32,
           signature := slice d 80 64,
           proof := slice d 148 (u32le (slice d 144 4)) }) := by
  simp only [decodeSubmission]
  constructor
  · split_ifs with h1 h2
    · exact iff_of_true rfl (Or.inl h1)
    · exact iff_of_true rfl (Or.inr h2)
    · refine iff_of_false (fun h => by cases h) ?_
      push_neg at h1 h2
      omega
  · intro h
    push_neg at h
    rw [if_neg (by omega), if_neg (by omega)]

/-- Witness for C5: the empty buffer is rejected as malformed. -/
theorem c5_request_decoder_witness :
    decodeSubmission [] = Except.error ProgramError.InvalidInstructionData :=
  (c5_request_decoder []).1.mpr (Or.inl (by decide))

/-- C6: the composed digest is the hash of the domain tag, then the
little-endian program id, then the little-endian proposal id, then the
verifying-key hash, then the hash of the proof, then the public-inputs
hash, in that order; the domain tag is the fixed ASCII literal
"VEILPROOF_V1".  `composeDigest` is a total function of its arguments,
so composition is deterministic and cannot fail. -/
theorem c6_digest_composer (H : Bytes → Bytes) (s : Submission) :
    composeDigest H s =
      H (domainTag ++ u64ToLe s.expected_program_id ++ u64ToLe s.proposal_id ++
         s.vk_hash ++ H s.proof ++ s.public_inputs_hash) ∧
    domainTag = [86, 69, 73, 76, 80, 82, 79, 79, 70, 95, 86, 49] := by
  constructor
  · simp [composeDigest, hashv, List.append_assoc]
  · decide

theorem slice_serBytes_zero (st : VerifiedVoteState) :
    slice (serBytes st) 0 8 = leBytes 8 st.proposal_id := by
  unfold slice serBytes
  rw [List.drop_zero]
  exact List.take_left' (length_leBytes 8 _)

/-- C10: the writability check runs before the stored state is read:
with a successful attestation and a non-writable state account, the
handler fails with the `NotWritable` signal (`InvalidAccountData`,
logging the writability line) for every content of the stored bytes,
including bytes that would fail to deserialize or that are stamped with
a different proposal id. -/
theorem c10_writability_first (H : Bytes → Bytes) (sa ia : AccountInfo)
    (rest : List AccountInfo) (d : Bytes) (batch : Batch) (s : Submission)
    (hd : decodeSubmission d = Except.ok s)
    (hk : ia.key = instructionsSysvarId)
    (hv : verify_ed25519_instruction batch ATTESTATION_SIGNER_PUBKEY s.signature
            (composeDigest H s) = true)
    (hw : sa.is_writable = false) :
    process_instruction H (sa :: ia :: rest) d batch =
      ⟨Except.error ProgramError.InvalidAccountData, sa.data, [LogMsg.notWritable]⟩ := by
  unfold process_instruction
  rw [hd]
  simp [hk, hv, hw]

/-- Witness for C10: a non-writable slot holding the undeserializable
single byte 7 still fails with the writability signal. -/
theorem c10_writability_first_witness :
    process_instruction H0 [⟨0, false, [7]⟩, sysAcc] cData5 cBatch =
      ⟨Except.error ProgramError.InvalidAccountData, [7], [LogMsg.notWritable]⟩ :=
  c10_writability_first H0 ⟨0, false, [7]⟩ sysAcc [] cData5 cBatch cSub5
    (by decide) rfl (by decide) rfl

/-- C2 (amended): once a first successful vote has stamped a NONZERO
proposal id into the slot, a later invocation that reaches the tally
stage with a different decoded proposal id fails with the
`ProposalMismatch` signal leaving the bytes unchanged, and every later
successful invocation leaves the stamped id unchanged.  (A slot stamped
with proposal id 0 is re-adopted by the next vote, see the
counterexample, so the claim's "for every value of the first proposal
id" is amended to nonzero first ids.) -/
theorem c2_slot_binding (H : Bytes → Bytes) (sa ia : AccountInfo) (rest : List AccountInfo)
    (d : Bytes) (batch : Batch) (s : Submission) (P y : Nat)
    (hd : decodeSubmission d = Except.ok s)
    (hk : ia.key = instructionsSysvarId)
    (hv : verify_ed25519_instruction batch ATTESTATION_SIGNER_PUBKEY s.signature
            (composeDigest H s) = true)
    (hw : sa.is_writable = true)
    (hdata : sa.data = serBytes ⟨P, y⟩)
    (hP0 : P ≠ 0) (hP : P < 2 ^ 64) (hy : y < 2 ^ 64) :
    (s.proposal_id ≠ P →
       process_instruction H (sa :: ia :: rest) d batch =
         ⟨Except.error ProgramError.InvalidInstructionData, sa.data,
          [LogMsg.proposalMismatch]⟩) ∧
    ((process_instruction H (sa :: ia :: rest) d batch).res = Except.ok () →
       slice (process_instruction H (sa :: ia :: rest) d batch).stateData 0 8 =
         leBytes 8 P) := by
  have hp := process_reaches_tally H sa ia rest d batch s hd hk hv hw
  rw [hdata, tallyFinish_on_ser s.proposal_id P y hP hy] at hp
  constructor
  · intro hne
    rw [hdata, hp, if_neg]
    exact fun h => h.elim hP0 fun hh => hne hh.symm
  · intro hok
    by_cases hc : P = 0 ∨ P = s.proposal_id
    · rw [hp, if_pos hc]
      have hcc : P = s.proposal_id := hc.resolve_left hP0
      simp only [if_neg hP0, slice_serBytes_zero]
    · rw [hp, if_neg hc] at hok
      cases hok

/-- Counterexample for C2: a first successful vote stamps proposal id 0
into the slot, and a later invocation decoding proposal id 5 does not
fail with `ProposalMismatch` — it succeeds and rebinds the slot to 5. -/
theorem c2_slot_binding_counterexample :
    process_instruction H0 [⟨0, true, serBytes ⟨0, 0⟩⟩, sysAcc] cData0 cBatch =
        ⟨Except.ok (), serBytes ⟨0, 1⟩, [LogMsg.verified 0]⟩ ∧
      process_instruction H0 [⟨0, true, serBytes ⟨0, 1⟩⟩, sysAcc] cData5 cBatch =
        ⟨Except.ok (), serBytes ⟨5, 2⟩, [LogMsg.verified 5]⟩ := by
  exact ⟨by decide, by decide⟩

/-- Witness for C2 (amended): a slot stamped with proposal 7 rejects a
vote decoding proposal 5. -/
theorem c2_slot_binding_witness :
    process_instruction H0 [⟨0, true, serBytes ⟨7, 3⟩⟩, sysAcc] cData5 cBatch =
      ⟨Except.error ProgramError.InvalidInstructionData, serBytes ⟨7, 3⟩,
       [LogMsg.proposalMismatch]⟩ :=
  (c2_slot_binding H0 ⟨0, true, serBytes ⟨7, 3⟩⟩ sysAcc [] cData5 cBatch cSub5 7 3
    (by decide) rfl (by decide) rfl rfl (by norm_num) (by norm_num) (by norm_num)).1
    (by decide)

/-- C7 (amended): on a 16-byte zeroed slot a first valid vote for P
yields yes_proofs = 1; a second valid vote for P yields yes_proofs = 2;
and a valid vote whose decoded proposal id differs from the stamped id
fails with `ProposalMismatch` leaving the record unchanged PROVIDED the
stamped id is nonzero (a slot stamped 0 instead adopts the new id, see
the counterexample). -/
theorem c7_tally_sequence (H : Bytes → Bytes) (sa ia : AccountInfo) (rest : List AccountInfo)
    (d : Bytes) (batch : Batch) (s : Submission) (P : Nat)
    (hd : decodeSubmission d = Except.ok s)
    (hk : ia.key = instructionsSysvarId)
    (hv : verify_ed25519_instruction batch ATTESTATION_SIGNER_PUBKEY s.signature
            (composeDigest H s) = true)
    (hw : sa.is_writable = true) :
    (sa.data = serBytes ⟨0, 0⟩ → s.proposal_id = P → P < 2 ^ 64 →
       process_instruction H (sa :: ia :: rest) d batch =
         ⟨Except.ok (), serBytes ⟨P, 1⟩, [LogMsg.verified P]⟩) ∧
    (sa.data = serBytes ⟨P, 1⟩ → s.proposal_id = P → P < 2 ^ 64 →
       process_instruction H (sa :: ia :: rest) d batch =
         ⟨Except.ok (), serBytes ⟨P, 2⟩, [LogMsg.verified P]⟩) ∧
    (∀ y, sa.data = serBytes ⟨P, y⟩ → s.proposal_id ≠ P → P ≠ 0 → P < 2 ^ 64 → y < 2 ^ 64 →
       process_instruction H (sa :: ia :: rest) d batch =
         ⟨Except.error ProgramError.InvalidInstructionData, serBytes ⟨P, y⟩,
          [LogMsg.proposalMismatch]⟩) := by
  refine ⟨fun hdata hpid hPlt => ?_, fun hdata hpid hPlt => ?_, fun y hdata hne hP0 hPlt hy => ?_⟩
  · have hp := process_reaches_tally H sa ia rest d batch s hd hk hv hw
    rw [hdata, tallyFinish_on_ser s.proposal_id 0 0 (by norm_num) (by norm_num)] at hp
    rw [hp, if_pos (Or.inl rfl)]
    simp [hpid]
  · have hp := process_reaches_tally H sa ia rest d batch s hd hk hv hw
    rw [hdata, tallyFinish_on_ser s.proposal_id P 1 hPlt (by norm_num)] at hp
    rw [hp, if_pos (Or.inr hpid.symm)]
    have hmin : min (1 + 1) (2 ^ 64 - 1) = 2 := by norm_num
    simp [hpid, hmin, ite_self]
  · have hp := process_reaches_tally H sa ia rest d batch s hd hk hv hw
    rw [hdata, tallyFinish_on_ser s.proposal_id P y hPlt hy] at hp
    rw [hp, if_neg]
    exact fun h => h.elim hP0 fun hh => hne hh.symm

/-- Counterexample for C7: two valid votes for proposal 0 leave the slot
stamped 0; a third valid vote decoding proposal 5 then succeeds with
yes_proofs = 3 instead of failing with `ProposalMismatch`. -/
theorem c7_tally_sequence_counterexample :
    process_instruction H0 [⟨0, true, serBytes ⟨0, 0⟩⟩, sysAcc] cData0 cBatch =
        ⟨Except.ok (), serBytes ⟨0, 1⟩, [LogMsg.verified 0]⟩ ∧
      process_instruction H0 [⟨0, true, serBytes ⟨0, 1⟩⟩, sysAcc] cData0 cBatch =
        ⟨Except.ok (), serBytes ⟨0, 2⟩, [LogMsg.verified 0]⟩ ∧
      process_instruction H0 [⟨0, true, serBytes ⟨0, 2⟩⟩, sysAcc] cData5 cBatch =
        ⟨Except.ok (), serBytes ⟨5, 3⟩, [LogMsg.verified 5]⟩ := by
  exact ⟨by decide, by decide, by decide⟩

/-- Witness for C7 (amended): a first valid vote for proposal 5 on a
zeroed slot yields yes_proofs = 1. -/
theorem c7_tally_sequence_witness :
    process_instruction H0 [⟨0, true, serBytes ⟨0, 0⟩⟩, sysAcc] cData5 cBatch =
      ⟨Except.ok (), serBytes ⟨5, 1⟩, [LogMsg.verified 5]⟩ :=
  (c7_tally_sequence H0 ⟨0, true, serBytes ⟨0, 0⟩⟩ sysAcc [] cData5 cBatch cSub5 5
    (by decide) rfl (by decide) rfl).1 rfl rfl (by norm_num)

/-- C8: a stored tally at the maximum u64 value stays at the maximum
after a further successful vote: the increment saturates and never
wraps to zero. -/
theorem c8_saturating_counter (H : Bytes → Bytes) (sa ia : AccountInfo)
    (rest : List AccountInfo) (d : Bytes) (batch : Batch) (s : Submission) (P : Nat)
    (hd : decodeSubmission d = Except.ok s)
    (hk : ia.key = instructionsSysvarId)
    (hv : verify_ed25519_instruction batch ATTESTATION_SIGNER_PUBKEY s.signature
            (composeDigest H s) = true)
    (hw : sa.is_writable = true)
    (hdata : sa.data = serBytes ⟨P, 2 ^ 64 - 1⟩)
    (hpid : s.proposal_id = P) (hP : P < 2 ^ 64) :
    process_instruction H (sa :: ia :: rest) d batch =
      ⟨Except.ok (), serBytes ⟨P, 2 ^ 64 - 1⟩, [LogMsg.verified P]⟩ := by
  have hp := process_reaches_tally H sa ia rest d batch s hd hk hv hw
  rw [hdata, tallyFinish_on_ser s.proposal_id P (2 ^ 64 - 1) hP (by norm_num)] at hp
  rw [hp, if_pos (Or.inr hpid.symm)]
  have hmin : min (2 ^ 64 - 1 + 1) (2 ^ 64 - 1) = 2 ^ 64 - 1 :=
    Nat.min_eq_right (Nat.le_succ _)
  simp [hpid, hmin, ite_self]

/-- Witness for C8: a slot for proposal 5 at the maximum count stays at
the maximum. -/
theorem c8_saturating_counter_witness :
    process_instruction H0 [⟨0, true, serBytes ⟨5, 2 ^ 64 - 1⟩⟩, sysAcc] cData5 cBatch =
      ⟨Except.ok (), serBytes ⟨5, 2 ^ 64 - 1⟩, [LogMsg.verified 5]⟩ :=
  c8_saturating_counter H0 ⟨0, true, serBytes ⟨5, 2 ^ 64 - 1⟩⟩ sysAcc [] cData5 cBatch
    cSub5 5 (by decide) rfl (by decide) rfl rfl rfl (by norm_num)

/-- C4: the handler is atomic with respect to the stored bytes — on
every error return the state account's bytes are unchanged, and on a
successful return the bytes are exactly one serialized record written
over the front of the slot (the single write of the call). -/
theorem c4_atomic_write (H : Bytes → Bytes) (sa : AccountInfo) (rest : List AccountInfo)
    (d : Bytes) (batch : Batch) :
    (∀ e, (process_instruction H (sa :: rest) d batch).res = Except.error e →
       (process_instruction H (sa :: rest) d batch).stateData = sa.data) ∧
    ((process_instruction H (sa :: rest) d batch).res = Except.ok () →
       ∃ st, (process_instruction H (sa :: rest) d batch).stateData =
         serBytes st ++ sa.data.drop 16) := by
  unfold process_instruction
  cases hdec : decodeSubmission d with
  | error e => exact ⟨fun _ _ => rfl, fun h => nomatch h⟩
  | ok s =>
    cases rest with
    | nil => exact ⟨fun _ _ => rfl, fun h => nomatch h⟩
    | cons ia rest' =>
      dsimp only
      split_ifs with h1 h2 h3 <;>
        first
          | exact ⟨fun _ _ => rfl, fun h => nomatch h⟩
          | exact ⟨(tallyFinish_cases s.proposal_id sa.data).2,
                   (tallyFinish_cases s.proposal_id sa.data).1⟩

/-- Witness for C4: the failing empty submission leaves the concrete
slot bytes untouched. -/
theorem c4_atomic_write_witness :
    (process_instruction H0 [⟨0, true, [1, 2, 3]⟩] [] cBatch).stateData = [1, 2, 3] :=
  (c4_atomic_write H0 ⟨0, true, [1, 2, 3]⟩ [] [] cBatch).1
    ProgramError.InvalidInstructionData (by decide)

/-- C9 (amended): the six failure classes collapse onto only two
returned error values — `InvalidInstructionData` for MalformedInput,
NoMatchingAttestation and ProposalMismatch; `InvalidAccountData` for
MissingOrWrongCapability, NotWritable and CorruptState — so the claim
that any two distinct causes return distinct error values fails (see
the counterexample).  What distinguishes the six causes observably is
the accompanying log line, CorruptState alone logging nothing: the six
(result, logs) pairs realized below are pairwise distinct. -/
theorem c9_error_signals :
    process_instruction H0 [⟨0, true, serBytes ⟨0, 0⟩⟩, sysAcc] [] cBatch =
        ⟨Except.error ProgramError.InvalidInstructionData, serBytes ⟨0, 0⟩,
         [LogMsg.invalidDataLen]⟩ ∧
      process_instruction H0 [⟨0, true, serBytes ⟨0, 0⟩⟩, ⟨0, false, []⟩] cData5 cBatch =
        ⟨Except.error ProgramError.InvalidAccountData, serBytes ⟨0, 0⟩,
         [LogMsg.missingSysvar]⟩ ∧
      process_instruction H0 [⟨0, true, serBytes ⟨0, 0⟩⟩, sysAcc] cData5 ⟨[], 0⟩ =
        ⟨Except.error ProgramError.InvalidInstructionData, serBytes ⟨0, 0⟩,
         [LogMsg.attestationFailed]⟩ ∧
      process_instruction H0 [⟨0, false, serBytes ⟨0, 0⟩⟩, sysAcc] cData5 cBatch =
        ⟨Except.error ProgramError.InvalidAccountData, serBytes ⟨0, 0⟩,
         [LogMsg.notWritable]⟩ ∧
      process_instruction H0 [⟨0, true, [1, 2, 3]⟩, sysAcc] cData5 cBatch =
        ⟨Except.error ProgramError.InvalidAccountData, [1, 2, 3], []⟩ ∧
      process_instruction H0 [⟨0, true, serBytes ⟨9, 0⟩⟩, sysAcc] cData5 cBatch =
        ⟨Except.error ProgramError.InvalidInstructionData, serBytes ⟨9, 0⟩,
         [LogMsg.proposalMismatch]⟩ ∧
      ([(Except.error ProgramError.InvalidInstructionData, [LogMsg.invalidDataLen]),
        (Except.error ProgramError.InvalidAccountData, [LogMsg.missingSysvar]),
        (Except.error ProgramError.InvalidInstructionData, [LogMsg.attestationFailed]),
        (Except.error ProgramError.InvalidAccountData, [LogMsg.notWritable]),
        (Except.error ProgramError.InvalidAccountData, []),
        (Except.error ProgramError.InvalidInstructionData, [LogMsg.proposalMismatch])] :
        List (Except ProgramError Unit × List LogMsg)).Nodup := by
  exact ⟨by decide, by decide, by decide, by decide, by decide, by decide, by decide⟩

/-- Counterexample for C9: two different failure causes produce equal
returned error values — a malformed (empty) submission and a proposal
mismatch both return `InvalidInstructionData`; the logs of the two runs
show they fail for the two different causes. -/
theorem c9_error_signals_counterexample :
    (process_instruction H0 [⟨0, true, serBytes ⟨0, 0⟩⟩, sysAcc] [] cBatch).res =
        Except.error ProgramError.InvalidInstructionData ∧
      (process_instruction H0 [⟨0, true, serBytes ⟨9, 0⟩⟩, sysAcc] cData5 cBatch).res =
        Except.error ProgramError.InvalidInstructionData ∧
      (process_instruction H0 [⟨0, true, serBytes ⟨0, 0⟩⟩, sysAcc] [] cBatch).logs =
        [LogMsg.invalidDataLen] ∧
      (process_instruction H0 [⟨0, true, serBytes ⟨9, 0⟩⟩, sysAcc] cData5 cBatch).logs =
        [LogMsg.proposalMismatch] := by
  exact ⟨by decide, by decide, by decide, by decide⟩

end VielProof
